import Mathlib

/-!
# timemory: component registry test and Python binding helpers

A shallow embedding of

* `source/tests/mpl_tests.cpp` : the expected aggregate count `extra` of
  `TEST_F(mpl_tests, available_index_sequence)`
* `source/python/libpytimemory.hpp` : `pytim::manager::write_ctest_notes`,
  `pytim::opt::ensure_directory_exists`, `pytim::opt::parse_known_args`
* the runtime selector of `timemory/runtime`, from its specification

together with the properties stated about them.
-/

set_option autoImplicit false

/-! ## Build configuration -/

/-- The four preprocessor feature flags tested by `mpl_tests.cpp`. -/
inductive Feature where
  | OMPT
  | MPI
  | NCCL
  | GOTCHA
deriving DecidableEq, Repr

/-- One build configuration: which of `TIMEMORY_USE_OMPT`, `TIMEMORY_USE_MPI`,
`TIMEMORY_USE_NCCL`, `TIMEMORY_USE_GOTCHA` are defined. -/
structure BuildConfig where
  TIMEMORY_USE_OMPT : Bool
  TIMEMORY_USE_MPI : Bool
  TIMEMORY_USE_NCCL : Bool
  TIMEMORY_USE_GOTCHA : Bool
deriving DecidableEq, Repr

namespace BuildConfig

/-- Reads `defined(TIMEMORY_USE_<f>)`. -/
def enabled (cfg : BuildConfig) : Feature → Bool
  | Feature.OMPT => cfg.TIMEMORY_USE_OMPT
  | Feature.MPI => cfg.TIMEMORY_USE_MPI
  | Feature.NCCL => cfg.TIMEMORY_USE_NCCL
  | Feature.GOTCHA => cfg.TIMEMORY_USE_GOTCHA

/-- The configuration that differs from `cfg` at most in flag `f`, which is set to `b`. -/
def set (cfg : BuildConfig) (f : Feature) (b : Bool) : BuildConfig :=
  match f with
  | Feature.OMPT => { cfg with TIMEMORY_USE_OMPT := b }
  | Feature.MPI => { cfg with TIMEMORY_USE_MPI := b }
  | Feature.NCCL => { cfg with TIMEMORY_USE_NCCL := b }
  | Feature.GOTCHA => { cfg with TIMEMORY_USE_GOTCHA := b }

end BuildConfig

/-! ## `mpl_tests.cpp` : the expected aggregate count -/

namespace mpl_tests

/-- Width of `size_t`. -/
def SIZE_WIDTH : Nat := 64

/-- The `-=` of `size_t`: subtraction modulo `2 ^ 64`. -/
def size_t_sub (a b : Nat) : Nat :=
  (a + 2 ^ SIZE_WIDTH - b % 2 ^ SIZE_WIDTH) % 2 ^ SIZE_WIDTH

/-- Lines 157-166 of `mpl_tests.cpp`:
```
size_t extra = 6;  // user_{global,trace,profiler,mpip,ompt,ncclp}_bundle
#if !defined(TIMEMORY_USE_OMPT)
    extra -= 1;
#endif
#if !defined(TIMEMORY_USE_MPI) || !defined(TIMEMORY_USE_GOTCHA)
    extra -= 1;
#endif
#if !defined(TIMEMORY_USE_NCCL) || !defined(TIMEMORY_USE_GOTCHA)
    extra -= 1;
#endif
``` -/
def extra (cfg : BuildConfig) : Nat :=
  let extra0 : Nat := 6
  let extra1 := if !cfg.TIMEMORY_USE_OMPT then size_t_sub extra0 1 else extra0
  let extra2 :=
    if !cfg.TIMEMORY_USE_MPI || !cfg.TIMEMORY_USE_GOTCHA then size_t_sub extra1 1 else extra1
  let extra3 :=
    if !cfg.TIMEMORY_USE_NCCL || !cfg.TIMEMORY_USE_GOTCHA then size_t_sub extra2 1 else extra2
  extra3

/-! ### The property registry

The component types and their availability are declared in `timemory/enum.h`,
`timemory/components/types.hpp` and the availability traits; the declarations below
stand for what the runtime selector takes from them. -/

/-- Modelled from the spec: a component type of the Property Registry, absent from the
sources (section 3 "ComponentType", section 4.2 "Availability Filter"): its canonical
name, whether its implementation is compiled in at all, and the optional subsystems it
depends on. -/
structure ComponentType where
  name : String
  compiled_in : Bool
  deps : List Feature
deriving DecidableEq, Repr

/-- Modelled from the spec: the Availability Filter `available(T)` (section 4.2), absent
from the sources: a type is available iff it is compiled in and every optional
subsystem it depends on is enabled in this build. -/
def is_available (cfg : BuildConfig) (T : ComponentType) : Bool :=
  T.compiled_in && T.deps.all cfg.enabled

/-- Modelled from the spec: the six aggregate types the test names in its comment
`user_{global,trace,profiler,mpip,ompt,ncclp}_bundle` (their declarations are absent),
each "available iff its declared dependency set is satisfied" (section 4.2); the
dependency sets are the conditions of the three `#if` lines of the test. -/
def user_global_bundle : ComponentType := ⟨"user_global_bundle", true, []⟩

/-- Modelled from the spec: see `user_global_bundle`. -/
def user_trace_bundle : ComponentType := ⟨"user_trace_bundle", true, []⟩

/-- Modelled from the spec: see `user_global_bundle`. -/
def user_profiler_bundle : ComponentType := ⟨"user_profiler_bundle", true, []⟩

/-- Modelled from the spec: see `user_global_bundle`; needs MPI and GOTCHA. -/
def user_mpip_bundle : ComponentType :=
  ⟨"user_mpip_bundle", true, [Feature.MPI, Feature.GOTCHA]⟩

/-- Modelled from the spec: see `user_global_bundle`; needs OMPT. -/
def user_ompt_bundle : ComponentType := ⟨"user_ompt_bundle", true, [Feature.OMPT]⟩

/-- Modelled from the spec: see `user_global_bundle`; needs NCCL and GOTCHA. -/
def user_ncclp_bundle : ComponentType :=
  ⟨"user_ncclp_bundle", true, [Feature.NCCL, Feature.GOTCHA]⟩

/-- Modelled from the spec: the aggregate types that have an id but are not part of
`TIMEMORY_COMPONENT_TYPES` (absent from the sources), in the order of the comment of
the test. -/
def internal_components : List ComponentType :=
  [user_global_bundle, user_trace_bundle, user_profiler_bundle,
   user_mpip_bundle, user_ompt_bundle, user_ncclp_bundle]

/-- Modelled from the spec: the declared component list `TIMEMORY_COMPONENT_TYPES` of
`timemory/components/types.hpp` (absent from the sources), of any length and content. -/
structure Registry where
  TIMEMORY_COMPONENT_TYPES : List ComponentType
deriving DecidableEq, Repr

/-- Modelled from the spec: the known types in the order of their ids (absent from the
sources): ids are dense and contiguous (section 4.1), the type with id `i` is entry
`i`; the declared types come first, the aggregate types after them. -/
def enumeration (reg : Registry) : List ComponentType :=
  reg.TIMEMORY_COMPONENT_TYPES ++ internal_components

/-- Modelled from the spec: reverse lookup `type_at(id)` (section 4.1),
`enumerator_t<Idx>` in the test; an id past the known types has no registered type. -/
def type_at (reg : Registry) (idx : Nat) : Option ComponentType :=
  (enumeration reg)[idx]?

/-- Modelled from the spec: the availability of the type behind an id; an id without a
registered type is not available. -/
def enumerator_available (cfg : BuildConfig) (reg : Registry) (idx : Nat) : Bool :=
  match type_at reg idx with
  | some T => is_available cfg T
  | none => false

end mpl_tests

/-! ## `timemory/runtime` : the runtime selector

`libpytimemory.hpp` includes `timemory/runtime/{configure,enumerate,initialize,insert,
invoker,properties}.hpp`; the selector below stands for them. -/

namespace runtime

open mpl_tests

/-- Modelled from the spec: the Component Bundle (section 3), absent from the sources,
seen through its active members: the ids of the component types that hold an active
instance, in the order in which they were constructed. -/
structure Bundle where
  active : List Nat
deriving DecidableEq, Repr

/-- Modelled from the spec: the output of the Runtime Selector (section 4.6), absent
from the sources: "a populated Bundle plus a list of skipped/rejected entries". -/
structure Selection where
  bundle : Bundle
  rejected : List String
deriving DecidableEq, Repr

/-- Modelled from the spec: name lookup in a list of known types: the position of the
first type with that canonical name. -/
def resolve_in : List ComponentType → String → Option Nat
  | [], _ => none
  | T :: rest, name =>
    if T.name = name then some 0 else (resolve_in rest name).map (· + 1)

/-- Modelled from the spec: "resolve to a known id via the Property Registry"
(section 4.6); `none` for an unknown name. -/
def resolve (reg : Registry) (name : String) : Option Nat :=
  resolve_in (enumeration reg) name

/-- Modelled from the spec: one entry of a SelectionRequest (section 4.6): "if unknown,
report and skip; if known but unavailable in this build, report and skip; if known and
available, mark that type active in the target Bundle, constructing its instance";
"activating an already-active type is a no-op, not a double-construction". -/
def select_one (cfg : BuildConfig) (reg : Registry) (sel : Selection) (entry : String) :
    Selection :=
  match resolve reg entry with
  | none => { sel with rejected := sel.rejected ++ [entry] }
  | some id =>
    if enumerator_available cfg reg id then
      if id ∈ sel.bundle.active then sel
      else { sel with bundle := { active := sel.bundle.active ++ [id] } }
    else { sel with rejected := sel.rejected ++ [entry] }

/-- Modelled from the spec: the Runtime Selector (section 4.6) on a request of names:
the entries are processed in order, starting from a Bundle without active member and
an empty rejected list. -/
def select (cfg : BuildConfig) (reg : Registry) (request : List String) : Selection :=
  request.foldl (select_one cfg reg) { bundle := { active := [] }, rejected := [] }

/-- A requested name is valid and available when it resolves to an id whose type is
available in this build. -/
def valid_available (cfg : BuildConfig) (reg : Registry) (name : String) : Bool :=
  match resolve reg name with
  | some id => enumerator_available cfg reg id
  | none => false

/-- A registry with two declared types, used for concrete evaluations. -/
def sample_registry : Registry :=
  { TIMEMORY_COMPONENT_TYPES :=
      [⟨"wall_clock", true, []⟩, ⟨"ompt_handle", true, [Feature.OMPT]⟩] }

end runtime

/-! ## `libpytimemory.hpp` : the Python objects the bindings handle -/

namespace pytim

/-- A Python value as far as the bindings look at it. -/
inductive PyObject where
  | None
  | bool (b : Bool)
  | str (s : String)
  | list (items : List PyObject)
  | tuple (items : List PyObject)
  | object (attrs : List (String × PyObject))

/-- The Python exceptions the pybind11 calls below can raise. -/
inductive PyErr where
  | TypeError
  | IndexError
  | AttributeError
deriving DecidableEq, Repr

/-- pybind11 `handle.cast<py::list>()` and `py::list x = obj`: for a Python type the
cast calls the converting constructor of `py::list`
(`PYBIND11_OBJECT_CVT(list, object, PyList_Check, PySequence_List)`): a list is kept,
any other object goes through `PySequence_List`, that is Python's `list(obj)`: a tuple
gives its items, a string gives its characters as one-character strings, an object
that is not iterable raises `TypeError`. -/
def cast_list : PyObject → Except PyErr (List PyObject)
  | PyObject.list items => Except.ok items
  | PyObject.tuple items => Except.ok items
  | PyObject.str s => Except.ok (s.data.map fun c => PyObject.str (String.singleton c))
  | _ => Except.error PyErr.TypeError

/-- How a pybind11 call ends when it does not return: with a Python exception carried
by `error_already_set`, or inside `PyUnicode_FromString` called on a null pointer,
which is outside the contract of the C API (the process faults in `strlen`). -/
inductive Stop where
  | raised (e : PyErr)
  | null_key
deriving DecidableEq, Repr

/-- pybind11 `lst[i]` on a `py::list` read as an object: `py::list` declares
`operator[](size_t)`, a `list_accessor` that reads `PyList_GetItem(lst, i)`. -/
def list_getitem (items : List PyObject) (i : Nat) : Except PyErr PyObject :=
  match items[i]? with
  | some x => Except.ok x
  | none => Except.error PyErr.IndexError

/-- pybind11 `acc[0]` on an attribute accessor such as `msys.attr("argv")`:
`object_api` declares only `operator[](handle)` and `operator[](const char*)`
(positions exist on `py::list`, `py::tuple` and `py::sequence` only). The literal `0`
is a null pointer constant: its conversion to `const char*` is a standard conversion
and is preferred to the user-defined conversion to `handle`, so the call is
`operator[](const char* key)` with a null `key`, whose body
`{derived(), pybind11::str(key)}` builds the key with `PyUnicode_FromString(nullptr)`.
No item of `obj` is read. -/
def object_api_getitem_zero (_obj : PyObject) : Except Stop PyObject :=
  Except.error Stop.null_key

/-- pybind11 `obj.attr(name)` read as an object: Python's `getattr(obj, name)`. -/
def getattr : PyObject → String → Except PyErr PyObject
  | PyObject.object attrs, name =>
    match attrs.lookup name with
    | some x => Except.ok x
    | none => Except.error PyErr.AttributeError
  | _, _ => Except.error PyErr.AttributeError

/-- The module attributes `parse_known_args` reads and writes: `sys.argv`,
`timemory.settings.dart_output`, `timemory.options.matplotlib_backend`. -/
structure Interpreter where
  sys_argv : PyObject
  dart_output : PyObject
  matplotlib_backend : PyObject

/-- The `parser` argument: a Python object whose `parse_known_args()` method is
called without argument (for an `argparse.ArgumentParser` it reads `sys.argv[1:]` and
returns the pair of the parsed-arguments object and the list of the arguments it did
not recognise). -/
structure ArgumentParser where
  parse_known_args : Interpreter → Except PyErr PyObject

namespace opt

/-- Lines 208-221 of `libpytimemory.hpp`:
```
py::list   kargs  = parser.attr("parse_known_args")();
py::object args   = kargs[0];
py::list   left   = kargs[1].cast<py::list>();
msys.attr("argv") = msys.attr("argv")[0].cast<py::list>() + left;
msettings.attr("dart_output")       = args.attr("timemory_echo_dart");
moptions.attr("matplotlib_backend") = args.attr("timemory_mpl_backend");
return args;
```
The result is the interpreter state where the function returns or stops, and the
returned object or the way it stopped. `kargs[0]` and `kargs[1]` index a `py::list`;
`msys.attr("argv")[0]` indexes an attribute accessor. -/
def parse_known_args (parser : ArgumentParser) (py : Interpreter) :
    Interpreter × Except Stop PyObject :=
  match parser.parse_known_args py >>= cast_list with
  | Except.error e => (py, Except.error (Stop.raised e))
  | Except.ok kargs =>
    match list_getitem kargs 0 with
    | Except.error e => (py, Except.error (Stop.raised e))
    | Except.ok args =>
      match list_getitem kargs 1 >>= cast_list with
      | Except.error e => (py, Except.error (Stop.raised e))
      | Except.ok left =>
        match object_api_getitem_zero py.sys_argv with
        | Except.error stop => (py, Except.error stop)
        | Except.ok item =>
          match cast_list item with
          | Except.error e => (py, Except.error (Stop.raised e))
          | Except.ok argv0 =>
            let py1 := { py with sys_argv := PyObject.list (argv0 ++ left) }
            match getattr args "timemory_echo_dart" with
            | Except.error e => (py1, Except.error (Stop.raised e))
            | Except.ok dart =>
              let py2 := { py1 with dart_output := dart }
              match getattr args "timemory_mpl_backend" with
              | Except.error e => (py2, Except.error (Stop.raised e))
              | Except.ok backend =>
                let py3 := { py2 with matplotlib_backend := backend }
                (py3, Except.ok args)

/-- The parsed-arguments object of the concrete run below. -/
def sample_args : PyObject :=
  PyObject.object
    [("timemory_echo_dart", PyObject.bool true),
     ("timemory_mpl_backend", PyObject.str "agg")]

/-- A parser that recognises `--timemory-echo-dart` and leaves `--other`. -/
def sample_argparse : ArgumentParser :=
  { parse_known_args := fun _ =>
      Except.ok (PyObject.tuple [sample_args, PyObject.list [PyObject.str "--other"]]) }

/-- The interpreter started as `python prog.py --timemory-echo-dart --other`. -/
def sample_interpreter : Interpreter :=
  { sys_argv :=
      PyObject.list
        [PyObject.str "prog.py", PyObject.str "--timemory-echo-dart", PyObject.str "--other"]
    dart_output := PyObject.None
    matplotlib_backend := PyObject.None }

end opt

end pytim

/-! ## `std::string`, `std::stringstream` and `std::ofstream` as the bindings use them

A `std::string` is a `String`; positions count characters. The separators searched for
are ASCII, so a position found in the characters and the same position found in the
bytes cut the string at the same place. -/

namespace string_t

/-- The call `s.find(c)` for a one-character pattern: the first position holding `c`, `none` for
`std::string::npos`. -/
def find (s : String) (c : Char) : Option Nat :=
  if s.data.indexOf c < s.data.length then some (s.data.indexOf c) else none

/-- The call `s.replace(pos, len, str)`: the `len` characters from `pos` are replaced by `str`. -/
def replace (s : String) (pos len : Nat) (str : String) : String :=
  ⟨s.data.take pos ++ str.data ++ s.data.drop (pos + len)⟩

/-- The scan of `find_last_of`: the highest position below `n` holding one of `chars`. -/
def find_last_of_below (s chars : List Char) : Nat → Option Nat
  | 0 => none
  | n + 1 =>
    match s[n]? with
    | some c => if c ∈ chars then some n else find_last_of_below s chars n
    | none => find_last_of_below s chars n

/-- The call `s.find_last_of(chars)`: the last position holding one of the characters of
`chars`, `none` for `std::string::npos`. -/
def find_last_of (s chars : String) : Option Nat :=
  find_last_of_below s.data chars.data s.data.length

/-- The call `s.substr(pos, n)`: at most `n` characters from position `pos`. -/
def substr (s : String) (pos n : Nat) : String :=
  ⟨(s.data.drop pos).take n⟩

end string_t

namespace pytim

/-- The manipulator `std::endl` written to a stream: a newline (and a flush). -/
def endl : String := "\n"

/-- The files `std::ofstream` sees: the text of each existing file, and whether
opening a path for writing succeeds. -/
structure FileSystem where
  contents : String → Option String
  can_open : String → Bool

/-- The open modes used by `write_ctest_notes`: `outf.open(path)` truncates,
`outf.open(path, std::ios::app)` appends. -/
inductive openmode where
  | out
  | app
deriving DecidableEq, Repr

/-- The call `std::ofstream::open`: whether the stream is good afterwards, and the files: a
successful open creates the file, and empties it unless the mode is `app`. -/
def ofstream_open (fs : FileSystem) (path : String) (mode : openmode) :
    Bool × FileSystem :=
  if fs.can_open path then
    (true,
      { fs with
        contents := fun q =>
          if q = path then
            match mode with
            | openmode.app => some ((fs.contents path).getD "")
            | openmode.out => some ""
          else fs.contents q })
  else (false, fs)

/-- The statement `outf << text` on a good stream opened on `path`, followed by `outf.close()`. -/
def ofstream_write (fs : FileSystem) (path text : String) : FileSystem :=
  { fs with
    contents := fun q =>
      if q = path then some ((fs.contents path).getD "" ++ text) else fs.contents q }

/-- What `libpytimemory.hpp` uses of the rest of the library, left open: the function
`tim::makedir`, the macro `TIMEMORY_JOIN` (its separator and its arguments) and the
conversion of a `tim::utility::path` to a `std::string`. -/
structure Library where
  makedir : String → FileSystem → FileSystem
  TIMEMORY_JOIN : String → List String → String
  path : String → String

namespace manager

/-- Lines 131-132 of `libpytimemory.hpp`, compiled on Windows only:
```
while(fname.find("\\") != std::string::npos)
    fname = fname.replace(fname.find("\\"), 1, "/");
```
with a bound on the number of iterations. -/
def replace_backslashes : Nat → String → String
  | 0, fname => fname
  | fuel + 1, fname =>
    match string_t.find fname '\\' with
    | some pos => replace_backslashes fuel (string_t.replace fname pos 1 "/")
    | none => fname

/-- Lines 114-157 of `libpytimemory.hpp`: `write_ctest_notes(man, directory, append)`,
where `text_files` is `man.attr("text_files")` read as a list of strings and `WIN32`
tells whether `_WIN32` or `_WIN64` is defined. The result is the returned path and the
files afterwards. -/
def write_ctest_notes (lib : Library) (WIN32 : Bool) (text_files : List String)
    (directory : String) (append : Bool) (fs : FileSystem) : String × FileSystem :=
  let filenames := text_files
  let ss := ""
  let ss := ss ++ endl
  let ss := ss ++ "IF(NOT DEFINED CTEST_NOTES_FILES)" ++ endl
  let ss := ss ++ "    SET(CTEST_NOTES_FILES )" ++ endl
  let ss := ss ++ "ENDIF(NOT DEFINED CTEST_NOTES_FILES)" ++ endl
  let ss := ss ++ endl
  let ss := filenames.foldl
    (fun ss itr =>
      let fname := itr
      let fname := if WIN32 then replace_backslashes fname.length fname else fname
      ss ++ "LIST(APPEND CTEST_NOTES_FILES \"" ++ fname ++ "\")" ++ endl)
    ss
  let ss := ss ++ endl
  let ss := ss ++ "IF(NOT \"$\x7bCTEST_NOTES_FILES\x7d\" STREQUAL \"\")" ++ endl
  let ss := ss ++ "    LIST(REMOVE_DUPLICATES CTEST_NOTES_FILES)" ++ endl
  let ss := ss ++ "ENDIF(NOT \"$\x7bCTEST_NOTES_FILES\x7d\" STREQUAL \"\")" ++ endl
  let ss := ss ++ endl
  let fs := lib.makedir directory fs
  let file_path := lib.path (lib.TIMEMORY_JOIN "/" [directory, "CTestNotes.cmake"])
  let outf :=
    if append then ofstream_open fs file_path openmode.app
    else ofstream_open fs file_path openmode.out
  let fs := if outf.1 then ofstream_write outf.2 file_path ss else outf.2
  (file_path, fs)

/-- The fixed block that opens the generated text. -/
def ctest_notes_header : String :=
  "\nIF(NOT DEFINED CTEST_NOTES_FILES)\n    SET(CTEST_NOTES_FILES )\nENDIF(NOT DEFINED CTEST_NOTES_FILES)\n\n"

/-- The line generated for one report file name. -/
def ctest_notes_line (name : String) : String :=
  "LIST(APPEND CTEST_NOTES_FILES \"" ++ name ++ "\")\n"

/-- The fixed block that closes the generated text. -/
def ctest_notes_footer : String :=
  "\nIF(NOT \"$\x7bCTEST_NOTES_FILES\x7d\" STREQUAL \"\")\n    LIST(REMOVE_DUPLICATES CTEST_NOTES_FILES)\nENDIF(NOT \"$\x7bCTEST_NOTES_FILES\x7d\" STREQUAL \"\")\n\n"

/-- The whole text for a list of report file names: header, one line per name in
order, footer. -/
def ctest_notes_text (names : List String) : String :=
  ctest_notes_header ++ String.join (names.map ctest_notes_line) ++ ctest_notes_footer

/-- A library whose `TIMEMORY_JOIN` puts the separator between its arguments, whose
path conversion keeps the string, and whose `makedir` leaves the files as they are. -/
def sample_library : Library :=
  { makedir := fun _ fs => fs
    TIMEMORY_JOIN := fun delim args => String.intercalate delim args
    path := fun p => p }

/-- Files: one existing notes file, every path can be opened. -/
def sample_files : FileSystem :=
  { contents := fun q => if q = "out/CTestNotes.cmake" then some "# old\n" else none
    can_open := fun _ => true }

end manager

namespace opt

/-- Lines 182-191 of `libpytimemory.hpp`: `ensure_directory_exists(file_path)`; `makedir`
is `tim::makedir` acting on a state of any kind. -/
def ensure_directory_exists {σ : Type} (makedir : String → σ → σ) (file_path : String)
    (st : σ) : σ :=
  match string_t.find_last_of file_path "/\\" with
  | some npos =>
    let dir := string_t.substr file_path 0 npos
    makedir dir st
  | none => st

end opt

end pytim

/-! # Properties -/

/-! ## The expected aggregate count `extra` -/

namespace mpl_tests

/-- C5, as stated, fails: with MPI and NCCL enabled, switching GOTCHA from disabled to
enabled moves `extra` from 3 to 5, a change of two. -/
theorem extra_gotcha_changes_by_two :
    extra ⟨false, true, true, false⟩ = 3 ∧ extra ⟨false, true, true, true⟩ = 5 ∧
      ¬ (extra (BuildConfig.set ⟨false, true, true, false⟩ Feature.GOTCHA true)
          ≤ extra ⟨false, true, true, false⟩ + 1) := by
  decide

/-- C5, amended: switching one of OMPT, MPI, NCCL from disabled to enabled, the other
three flags fixed, never lowers `extra` and raises it by at most one; switching GOTCHA
never lowers it and raises it by at most two; and `extra` always lies within 3..6, so
the `size_t` subtractions never wrap. -/
theorem extra_flag_step (cfg : BuildConfig) :
    (∀ f : Feature, f ≠ Feature.GOTCHA →
        extra (cfg.set f false) ≤ extra (cfg.set f true) ∧
          extra (cfg.set f true) ≤ extra (cfg.set f false) + 1) ∧
      (extra (cfg.set Feature.GOTCHA false) ≤ extra (cfg.set Feature.GOTCHA true) ∧
        extra (cfg.set Feature.GOTCHA true) ≤ extra (cfg.set Feature.GOTCHA false) + 2) ∧
      3 ≤ extra cfg ∧ extra cfg ≤ 6 := by
  rcases cfg with ⟨a, b, c, d⟩
  refine ⟨fun f hf => ?_, ?_, ?_⟩
  · cases f
    · cases a <;> cases b <;> cases c <;> cases d <;> decide
    · cases a <;> cases b <;> cases c <;> cases d <;> decide
    · cases a <;> cases b <;> cases c <;> cases d <;> decide
    · exact absurd rfl hf
  · cases a <;> cases b <;> cases c <;> cases d <;> decide
  · cases a <;> cases b <;> cases c <;> cases d <;> decide

/-- C6: `extra` is monotone in the feature flags: when the second configuration
enables every flag the first one enables, its `extra` is at least that of the first;
and `extra` is determined by the flags alone: two configurations that enable the same
flags have the same `extra`. -/
theorem extra_monotone (cfg₁ cfg₂ : BuildConfig)
    (h : ∀ f : Feature, cfg₁.enabled f = true → cfg₂.enabled f = true) :
    extra cfg₁ ≤ extra cfg₂ ∧
      ((∀ f : Feature, cfg₂.enabled f = true → cfg₁.enabled f = true) →
        extra cfg₁ = extra cfg₂) := by
  rcases cfg₁ with ⟨a₁, b₁, c₁, d₁⟩
  rcases cfg₂ with ⟨a₂, b₂, c₂, d₂⟩
  have ha := h Feature.OMPT
  have hb := h Feature.MPI
  have hc := h Feature.NCCL
  have hd := h Feature.GOTCHA
  simp only [BuildConfig.enabled] at ha hb hc hd
  constructor
  · cases a₁ <;> cases b₁ <;> cases c₁ <;> cases d₁ <;>
      cases a₂ <;> cases b₂ <;> cases c₂ <;> cases d₂ <;>
      first
        | decide
        | exact absurd (ha rfl) (by decide)
        | exact absurd (hb rfl) (by decide)
        | exact absurd (hc rfl) (by decide)
        | exact absurd (hd rfl) (by decide)
  · intro h'
    have ha' := h' Feature.OMPT
    have hb' := h' Feature.MPI
    have hc' := h' Feature.NCCL
    have hd' := h' Feature.GOTCHA
    simp only [BuildConfig.enabled] at ha' hb' hc' hd'
    have e1 : a₁ = a₂ := Bool.eq_iff_iff.mpr ⟨ha, ha'⟩
    have e2 : b₁ = b₂ := Bool.eq_iff_iff.mpr ⟨hb, hb'⟩
    have e3 : c₁ = c₂ := Bool.eq_iff_iff.mpr ⟨hc, hc'⟩
    have e4 : d₁ = d₂ := Bool.eq_iff_iff.mpr ⟨hd, hd'⟩
    rw [e1, e2, e3, e4]

/-- C6 at a concrete pair: enabling GOTCHA on top of OMPT and MPI raises `extra` from
4 to 5. -/
theorem extra_monotone_witness :
    (∀ f : Feature, BuildConfig.enabled ⟨true, true, false, false⟩ f = true →
        BuildConfig.enabled ⟨true, true, false, true⟩ f = true) ∧
      extra ⟨true, true, false, false⟩ = 4 ∧ extra ⟨true, true, false, true⟩ = 5 ∧
      extra ⟨true, true, false, false⟩ ≤ extra ⟨true, true, false, true⟩ :=
  ⟨fun f => by cases f <;> decide, by decide, by decide,
    (extra_monotone ⟨true, true, false, false⟩ ⟨true, true, false, true⟩
      (fun f => by cases f <;> decide)).1⟩

end mpl_tests

/-! ## The runtime selector -/

namespace runtime

open mpl_tests

theorem resolve_in_name (L : List ComponentType) (name : String) (i : Nat)
    (h : resolve_in L name = some i) : ∃ T, L[i]? = some T ∧ T.name = name := by
  induction L generalizing i with
  | nil => simp [resolve_in] at h
  | cons T rest ih =>
    unfold resolve_in at h
    by_cases hn : T.name = name
    · rw [if_pos hn] at h
      cases h
      exact ⟨T, by simp, hn⟩
    · rw [if_neg hn] at h
      cases hr : resolve_in rest name with
      | none => rw [hr] at h; simp at h
      | some j =>
        rw [hr] at h
        simp at h
        subst h
        obtain ⟨U, hU, hUn⟩ := ih j hr
        exact ⟨U, by simpa using hU, hUn⟩

/-- Two names that resolve to the same id are the same name. -/
theorem resolve_inj (reg : Registry) (n m : String) (i : Nat)
    (hn : resolve reg n = some i) (hm : resolve reg m = some i) : n = m := by
  obtain ⟨T, hT, hTn⟩ := resolve_in_name _ _ _ hn
  obtain ⟨U, hU, hUm⟩ := resolve_in_name _ _ _ hm
  rw [hT] at hU
  cases hU
  rw [← hTn, ← hUm]

theorem dedup_length_append_singleton_of_mem (l : List String) (x : String) (hx : x ∈ l) :
    ((l ++ [x]).dedup).length = (l.dedup).length := by
  rw [← List.card_toFinset, ← List.card_toFinset, List.toFinset_append]
  have h : l.toFinset ∪ [x].toFinset = insert x l.toFinset := by
    ext a
    simp
    tauto
  rw [h, Finset.card_insert_of_mem (List.mem_toFinset.mpr hx)]

theorem dedup_length_append_singleton_of_not_mem (l : List String) (x : String)
    (hx : x ∉ l) : ((l ++ [x]).dedup).length = (l.dedup).length + 1 := by
  rw [← List.card_toFinset, ← List.card_toFinset, List.toFinset_append]
  have h : l.toFinset ∪ [x].toFinset = insert x l.toFinset := by
    ext a
    simp
    tauto
  rw [h, Finset.card_insert_of_not_mem (fun hm => hx (List.mem_toFinset.mp hm))]

theorem select_append (cfg : BuildConfig) (reg : Registry) (xs : List String) (x : String) :
    select cfg reg (xs ++ [x]) = select_one cfg reg (select cfg reg xs) x := by
  simp [select, List.foldl_append]

theorem valid_available_iff (cfg : BuildConfig) (reg : Registry) (n : String) :
    valid_available cfg reg n = true ↔
      ∃ id, resolve reg n = some id ∧ enumerator_available cfg reg id = true := by
  unfold valid_available
  cases h : resolve reg n with
  | none => simp
  | some id => simp

/-- What holds of the selection after any request. -/
theorem select_invariant (cfg : BuildConfig) (reg : Registry) (xs : List String) :
    (select cfg reg xs).bundle.active.Nodup ∧
      (∀ id, id ∈ (select cfg reg xs).bundle.active ↔
        ∃ n ∈ xs, resolve reg n = some id ∧ enumerator_available cfg reg id = true) ∧
      (select cfg reg xs).rejected = xs.filter (fun n => !valid_available cfg reg n) ∧
      (select cfg reg xs).bundle.active.length
        = ((xs.filter (valid_available cfg reg)).dedup).length := by
  induction xs using List.reverseRecOn with
  | nil => simp [select]
  | append_singleton xs x ih =>
    obtain ⟨hnd, hmem, hrej, hlen⟩ := ih
    rw [select_append]
    cases hr : resolve reg x with
    | none =>
      have hv : valid_available cfg reg x = false := by simp [valid_available, hr]
      have hs : select_one cfg reg (select cfg reg xs) x
          = { select cfg reg xs with rejected := (select cfg reg xs).rejected ++ [x] } := by
        simp [select_one, hr]
      rw [hs]
      refine ⟨hnd, ?_, ?_, ?_⟩
      · intro id
        rw [hmem id]
        constructor
        · rintro ⟨n, hn, h⟩
          exact ⟨n, List.mem_append_left _ hn, h⟩
        · rintro ⟨n, hn, h⟩
          rcases List.mem_append.mp hn with hn | hn
          · exact ⟨n, hn, h⟩
          · simp at hn
            subst hn
            rw [hr] at h
            simp at h
      · simp [hrej, List.filter_append, hv]
      · simp [hlen, List.filter_append, hv]
    | some id =>
      cases ha : enumerator_available cfg reg id with
      | false =>
        have hv : valid_available cfg reg x = false := by simp [valid_available, hr, ha]
        have hs : select_one cfg reg (select cfg reg xs) x
            = { select cfg reg xs with
                rejected := (select cfg reg xs).rejected ++ [x] } := by
          simp [select_one, hr, ha]
        rw [hs]
        refine ⟨hnd, ?_, ?_, ?_⟩
        · intro id'
          rw [hmem id']
          constructor
          · rintro ⟨n, hn, h⟩
            exact ⟨n, List.mem_append_left _ hn, h⟩
          · rintro ⟨n, hn, h⟩
            rcases List.mem_append.mp hn with hn | hn
            · exact ⟨n, hn, h⟩
            · simp at hn
              subst hn
              rw [hr] at h
              obtain ⟨h1, h2⟩ := h
              cases h1
              rw [ha] at h2
              simp at h2
        · simp [hrej, List.filter_append, hv]
        · simp [hlen, List.filter_append, hv]
      | true =>
        have hv : valid_available cfg reg x = true := by simp [valid_available, hr, ha]
        have hxmem : x ∈ xs.filter (valid_available cfg reg) ↔
            id ∈ (select cfg reg xs).bundle.active := by
          rw [hmem id, List.mem_filter]
          constructor
          · rintro ⟨hx, _⟩
            exact ⟨x, hx, hr, ha⟩
          · rintro ⟨n, hn, hrn, _⟩
            have : n = x := resolve_inj reg n x id hrn hr
            subst this
            exact ⟨hn, hv⟩
        by_cases hin : id ∈ (select cfg reg xs).bundle.active
        · have hs : select_one cfg reg (select cfg reg xs) x = select cfg reg xs := by
            simp [select_one, hr, ha, hin]
          rw [hs]
          refine ⟨hnd, ?_, ?_, ?_⟩
          · intro id'
            rw [hmem id']
            constructor
            · rintro ⟨n, hn, h⟩
              exact ⟨n, List.mem_append_left _ hn, h⟩
            · rintro ⟨n, hn, h⟩
              rcases List.mem_append.mp hn with hn | hn
              · exact ⟨n, hn, h⟩
              · simp at hn
                subst hn
                rw [hr] at h
                obtain ⟨h1, _⟩ := h
                cases h1
                exact (hmem id).mp hin
          · simp [hrej, List.filter_append, hv]
          · rw [hlen, List.filter_append]
            have hx : x ∈ xs.filter (valid_available cfg reg) := hxmem.mpr hin
            have hfx : List.filter (valid_available cfg reg) [x] = [x] := by simp [hv]
            rw [hfx]
            exact (dedup_length_append_singleton_of_mem _ x hx).symm
        · have hs : select_one cfg reg (select cfg reg xs) x
              = { select cfg reg xs with
                  bundle := { active := (select cfg reg xs).bundle.active ++ [id] } } := by
            simp [select_one, hr, ha, hin]
          rw [hs]
          refine ⟨?_, ?_, ?_, ?_⟩
          · show ((select cfg reg xs).bundle.active ++ [id]).Nodup
            rw [List.nodup_append]
            refine ⟨hnd, List.nodup_singleton id, ?_⟩
            intro a ha1 ha2
            simp at ha2
            subst ha2
            exact hin ha1
          · intro id'
            show id' ∈ (select cfg reg xs).bundle.active ++ [id] ↔ _
            rw [List.mem_append, hmem id']
            constructor
            · rintro (⟨n, hn, h⟩ | h)
              · exact ⟨n, List.mem_append_left _ hn, h⟩
              · simp at h
                subst h
                exact ⟨x, by simp, hr, ha⟩
            · rintro ⟨n, hn, h⟩
              rcases List.mem_append.mp hn with hn | hn
              · exact Or.inl ⟨n, hn, h⟩
              · simp at hn
                subst hn
                rw [hr] at h
                obtain ⟨h1, _⟩ := h
                cases h1
                exact Or.inr (by simp)
          · simp [hrej, List.filter_append, hv]
          · show ((select cfg reg xs).bundle.active ++ [id]).length = _
            rw [List.length_append, hlen, List.filter_append]
            have hx : x ∉ xs.filter (valid_available cfg reg) := fun h => hin (hxmem.mp h)
            have hfx : List.filter (valid_available cfg reg) [x] = [x] := by simp [hv]
            rw [hfx]
            exact (dedup_length_append_singleton_of_not_mem _ x hx).symm

/-- C7: runtime selection is idempotent and never fails: after any request the active
list holds no id twice, every valid available name of the request is active exactly
once, the active-member count is the number of distinct valid available names of the
request, and every unknown name of the request is in the rejected list; in particular
`["wall_clock", "bogus_name", "wall_clock"]`, with `wall_clock` available and
`bogus_name` unknown, yields exactly one active `wall_clock` and a rejected list
containing `bogus_name`. -/
theorem select_idempotent (cfg : BuildConfig) (reg : Registry) (request : List String) :
    (select cfg reg request).bundle.active.Nodup ∧
      (∀ name ∈ request, valid_available cfg reg name = true →
        ∃ id, resolve reg name = some id ∧
          (select cfg reg request).bundle.active.count id = 1) ∧
      (select cfg reg request).bundle.active.length
        = ((request.filter (valid_available cfg reg)).dedup).length ∧
      (∀ name ∈ request, resolve reg name = none →
        name ∈ (select cfg reg request).rejected) ∧
      (∀ id, resolve reg "wall_clock" = some id →
        enumerator_available cfg reg id = true →
        resolve reg "bogus_name" = none →
        (select cfg reg ["wall_clock", "bogus_name", "wall_clock"]).bundle.active = [id] ∧
          "bogus_name"
            ∈ (select cfg reg ["wall_clock", "bogus_name", "wall_clock"]).rejected) := by
  obtain ⟨hnd, hmem, hrej, hlen⟩ := select_invariant cfg reg request
  refine ⟨hnd, ?_, hlen, ?_, ?_⟩
  · intro name hname hv
    obtain ⟨id, hr, ha⟩ := (valid_available_iff cfg reg name).mp hv
    refine ⟨id, hr, ?_⟩
    exact List.count_eq_one_of_mem hnd ((hmem id).mpr ⟨name, hname, hr, ha⟩)
  · intro name hname hr
    rw [hrej, List.mem_filter]
    refine ⟨hname, ?_⟩
    simp [valid_available, hr]
  · intro id hw ha hb
    simp [select, select_one, hw, ha, hb]

/-- C7 at a concrete registry in which `wall_clock` has id 0 and is available. -/
theorem select_idempotent_witness :
    resolve sample_registry "wall_clock" = some 0 ∧
      enumerator_available ⟨false, false, false, false⟩ sample_registry 0 = true ∧
      resolve sample_registry "bogus_name" = none ∧
      (select ⟨false, false, false, false⟩ sample_registry
          ["wall_clock", "bogus_name", "wall_clock"]).bundle.active = [0] ∧
      "bogus_name" ∈ (select ⟨false, false, false, false⟩ sample_registry
          ["wall_clock", "bogus_name", "wall_clock"]).rejected :=
  ⟨by decide, by decide, by decide,
    (select_idempotent ⟨false, false, false, false⟩ sample_registry
      ["wall_clock", "bogus_name", "wall_clock"]).2.2.2.2 0
      (by decide) (by decide) (by decide)⟩

end runtime

/-! ## `pytim::opt::parse_known_args` -/

namespace pytim

namespace opt

/-- Whatever the parser and the interpreter state, `parse_known_args` does not
return: it stops with an exception of the first three statements or, past them, at
`msys.attr("argv")[0]`; `sys.argv` and the two settings are left as they were. -/
theorem parse_known_args_stops (parser : ArgumentParser) (py : Interpreter) :
    (parse_known_args parser py).1 = py ∧
      ∀ args : PyObject, (parse_known_args parser py).2 ≠ Except.ok args := by
  unfold parse_known_args
  cases h1 : parser.parse_known_args py >>= cast_list with
  | error e => exact ⟨rfl, fun _ h => by cases h⟩
  | ok kargs =>
    dsimp only
    cases h2 : list_getitem kargs 0 with
    | error e => exact ⟨rfl, fun _ h => by cases h⟩
    | ok args =>
      dsimp only
      cases h3 : list_getitem kargs 1 >>= cast_list with
      | error e => exact ⟨rfl, fun _ h => by cases h⟩
      | ok left => exact ⟨rfl, fun _ h => by cases h⟩

/-- Had `msys.attr("argv")[0]` yielded the program name, `cast<py::list>()` would turn
it into the list of its characters, not into a one-element list. -/
theorem cast_list_program_name :
    cast_list (PyObject.str "prog.py")
      = Except.ok
          [PyObject.str "p", PyObject.str "r", PyObject.str "o", PyObject.str "g",
           PyObject.str ".", PyObject.str "p", PyObject.str "y"] := rfl

/-- C8 at `python prog.py --timemory-echo-dart --other` with a parser that leaves
`--other` unrecognised: the function stops at `msys.attr("argv")[0]`, which hands a
null key to `pybind11::str`; it does not return the parsed-arguments object, `sys.argv`
is still the original list and not `["prog.py", "--other"]`, and the two attributes are
not copied. -/
theorem parse_known_args_stops_at_argv :
    (parse_known_args sample_argparse sample_interpreter).2
        = Except.error Stop.null_key ∧
      (parse_known_args sample_argparse sample_interpreter).2 ≠ Except.ok sample_args ∧
      (parse_known_args sample_argparse sample_interpreter).1.sys_argv
        = PyObject.list
            [PyObject.str "prog.py", PyObject.str "--timemory-echo-dart",
             PyObject.str "--other"] ∧
      (parse_known_args sample_argparse sample_interpreter).1.sys_argv
        ≠ PyObject.list [PyObject.str "prog.py", PyObject.str "--other"] ∧
      (parse_known_args sample_argparse sample_interpreter).1.dart_output
        = PyObject.None ∧
      (parse_known_args sample_argparse sample_interpreter).1.matplotlib_backend
        = PyObject.None := by
  have h : parse_known_args sample_argparse sample_interpreter
      = (sample_interpreter, Except.error Stop.null_key) := rfl
  rw [h]
  refine ⟨rfl, ?_, rfl, ?_, rfl, rfl⟩
  · intro hne
    cases hne
  · simp [sample_interpreter]

end opt

end pytim

/-! ## `pytim::manager::write_ctest_notes` -/

namespace pytim

namespace manager

/-- Replacing backslashes changes nothing in a string without backslash. -/
theorem map_of_not_mem (l : List Char) (h : '\\' ∉ l) :
    l.map (fun c => if c = '\\' then '/' else c) = l := by
  induction l with
  | nil => rfl
  | cons a l ih =>
    simp only [List.mem_cons, not_or] at h
    rw [List.map_cons, ih h.2, if_neg (fun e => h.1 e.symm)]

/-- When `find` returns `npos` the string holds no backslash. -/
theorem find_none (s : String) (h : string_t.find s '\\' = none) : '\\' ∉ s.data := by
  unfold string_t.find at h
  split at h
  · cases h
  · intro hm
    exact absurd (List.indexOf_lt_length.mpr hm) (by assumption)

/-- When `find` returns a position, `replace` turns the backslash there into a slash. -/
theorem find_some (s : String) (i : Nat) (h : string_t.find s '\\' = some i) :
    ∃ pre post, s.data = pre ++ '\\' :: post ∧
      (string_t.replace s i 1 "/").data = pre ++ '/' :: post := by
  unfold string_t.find at h
  split at h
  next hlt =>
    cases h
    have hm : '\\' ∈ s.data := List.indexOf_lt_length.mp hlt
    refine ⟨s.data.take (s.data.indexOf '\\'), s.data.drop (s.data.indexOf '\\' + 1), ?_, ?_⟩
    · have hg : s.data[s.data.indexOf '\\'] = '\\' := List.getElem_indexOf hlt
      conv_lhs => rw [← List.take_append_drop (s.data.indexOf '\\') s.data]
      congr 1
      rw [List.drop_eq_getElem_cons hlt, hg]
    · simp [string_t.replace]
  · cases h

/-- The bound `fname.length` on the iterations is enough: the loop ends with every
backslash replaced by a slash. -/
theorem replace_backslashes_data (fuel : Nat) (s : String)
    (h : s.data.count '\\' ≤ fuel) :
    (replace_backslashes fuel s).data
      = s.data.map (fun c => if c = '\\' then '/' else c) := by
  induction fuel generalizing s with
  | zero =>
    have hn : '\\' ∉ s.data := List.count_eq_zero.mp (Nat.le_zero.mp h)
    rw [map_of_not_mem _ hn]
    rfl
  | succ fuel ih =>
    unfold replace_backslashes
    cases hf : string_t.find s '\\' with
    | none =>
      rw [map_of_not_mem _ (find_none s hf)]
    | some i =>
      obtain ⟨pre, post, hs, hr⟩ := find_some s i hf
      have hc : (string_t.replace s i 1 "/").data.count '\\' ≤ fuel := by
        rw [hr]
        rw [hs] at h
        simp [List.count_append, List.count_cons] at h ⊢
        omega
      show (replace_backslashes fuel (string_t.replace s i 1 "/")).data = _
      rw [ih _ hc, hr, hs]
      simp

/-- The Windows loop as run by `write_ctest_notes`. -/
theorem replace_backslashes_length (s : String) :
    (replace_backslashes s.length s).data
      = s.data.map (fun c => if c = '\\' then '/' else c) :=
  replace_backslashes_data s.length s (List.count_le_length _ _)

theorem join_cons (s : String) (ss : List String) :
    String.join (s :: ss) = s ++ String.join ss := by
  apply String.ext
  simp [String.join_eq]

/-- The loop over the file names appends one line per name, in order. -/
theorem foldl_lines (names : List String) (init : String) :
    names.foldl
        (fun ss itr =>
          ss ++ "LIST(APPEND CTEST_NOTES_FILES \"" ++
            (if false = true then replace_backslashes itr.length itr else itr) ++ "\")" ++ endl)
        init
      = init ++ String.join (names.map ctest_notes_line) := by
  induction names generalizing init with
  | nil =>
    apply String.ext
    simp [String.join_eq]
  | cons x rest ih =>
    rw [List.foldl_cons, ih, List.map_cons, join_cons]
    apply String.ext
    simp [ctest_notes_line, endl]

/-- The function on a build that is not a Windows build, with the text in closed
form. -/
theorem write_ctest_notes_eq (lib : Library) (names : List String) (directory : String)
    (append : Bool) (fs : FileSystem) :
    write_ctest_notes lib false names directory append fs
      = (lib.path (lib.TIMEMORY_JOIN "/" [directory, "CTestNotes.cmake"]),
          if (ofstream_open (lib.makedir directory fs)
                (lib.path (lib.TIMEMORY_JOIN "/" [directory, "CTestNotes.cmake"]))
                (if append then openmode.app else openmode.out)).1
          then
            ofstream_write
              (ofstream_open (lib.makedir directory fs)
                (lib.path (lib.TIMEMORY_JOIN "/" [directory, "CTestNotes.cmake"]))
                (if append then openmode.app else openmode.out)).2
              (lib.path (lib.TIMEMORY_JOIN "/" [directory, "CTestNotes.cmake"]))
              (ctest_notes_text names)
          else
            (ofstream_open (lib.makedir directory fs)
                (lib.path (lib.TIMEMORY_JOIN "/" [directory, "CTestNotes.cmake"]))
                (if append then openmode.app else openmode.out)).2) := by
  unfold write_ctest_notes
  simp only [foldl_lines]
  have htext : "" ++ endl ++ "IF(NOT DEFINED CTEST_NOTES_FILES)" ++ endl
        ++ "    SET(CTEST_NOTES_FILES )" ++ endl
        ++ "ENDIF(NOT DEFINED CTEST_NOTES_FILES)" ++ endl ++ endl
        ++ String.join (names.map ctest_notes_line) ++ endl
        ++ "IF(NOT \"$\x7bCTEST_NOTES_FILES\x7d\" STREQUAL \"\")" ++ endl
        ++ "    LIST(REMOVE_DUPLICATES CTEST_NOTES_FILES)" ++ endl
        ++ "ENDIF(NOT \"$\x7bCTEST_NOTES_FILES\x7d\" STREQUAL \"\")" ++ endl ++ endl
      = ctest_notes_text names := by
    have hH : "" ++ endl ++ "IF(NOT DEFINED CTEST_NOTES_FILES)" ++ endl
          ++ "    SET(CTEST_NOTES_FILES )" ++ endl
          ++ "ENDIF(NOT DEFINED CTEST_NOTES_FILES)" ++ endl ++ endl
        = ctest_notes_header := by decide
    have hF : endl ++ ("IF(NOT \"$\x7bCTEST_NOTES_FILES\x7d\" STREQUAL \"\")" ++ (endl
          ++ ("    LIST(REMOVE_DUPLICATES CTEST_NOTES_FILES)" ++ (endl
          ++ ("ENDIF(NOT \"$\x7bCTEST_NOTES_FILES\x7d\" STREQUAL \"\")" ++ (endl ++ endl))))))
        = ctest_notes_footer := by decide
    rw [hH]
    simp only [String.append_assoc]
    rw [hF]
    unfold ctest_notes_text
    rw [String.append_assoc]
  rw [htext]
  cases append <;> rfl

/-- C9: for every list of report file names and every directory, on a build that is
not a Windows build, `write_ctest_notes` returns `TIMEMORY_JOIN("/", directory,
"CTestNotes.cmake")` read as a path, which is `directory/CTestNotes.cmake` when the
join puts its separator between its two arguments and the path conversion keeps the
string; the text it writes is the header block, one `LIST(APPEND CTEST_NOTES_FILES
"<name>")` line per file name in the order of the list with the name unchanged, and
the footer block, whatever the append flag; the flag only selects whether that text
follows the previous content of the file or replaces it; no other file changes, and
nothing changes when the file cannot be opened. -/
theorem write_ctest_notes_text (lib : Library) (names : List String) (directory : String)
    (append : Bool) (fs : FileSystem) :
    (write_ctest_notes lib false names directory append fs).1
        = lib.path (lib.TIMEMORY_JOIN "/" [directory, "CTestNotes.cmake"]) ∧
      ((∀ a b : String, lib.path (lib.TIMEMORY_JOIN "/" [a, b]) = a ++ "/" ++ b) →
        (write_ctest_notes lib false names directory append fs).1
          = directory ++ "/" ++ "CTestNotes.cmake") ∧
      ((lib.makedir directory fs).can_open
            (write_ctest_notes lib false names directory append fs).1 = true →
        (write_ctest_notes lib false names directory append fs).2.contents
            (write_ctest_notes lib false names directory append fs).1
          = some ((if append then
                    ((lib.makedir directory fs).contents
                      (write_ctest_notes lib false names directory append fs).1).getD ""
                  else "")
              ++ (ctest_notes_header ++ String.join (names.map ctest_notes_line)
                    ++ ctest_notes_footer))) ∧
      ((lib.makedir directory fs).can_open
            (write_ctest_notes lib false names directory append fs).1 = false →
        (write_ctest_notes lib false names directory append fs).2.contents
          = (lib.makedir directory fs).contents) ∧
      (∀ q : String, q ≠ (write_ctest_notes lib false names directory append fs).1 →
        (write_ctest_notes lib false names directory append fs).2.contents q
          = (lib.makedir directory fs).contents q) := by
  rw [write_ctest_notes_eq]
  refine ⟨rfl, ?_, ?_, ?_, ?_⟩
  · intro h
    exact h directory "CTestNotes.cmake"
  · intro hopen
    simp only [] at hopen
    cases append <;>
      simp [ofstream_open, ofstream_write, hopen, ctest_notes_text]
  · intro hopen
    simp only [] at hopen
    simp [ofstream_open, hopen]
  · intro q hq
    simp only [] at hq
    by_cases hopen : (lib.makedir directory fs).can_open
        (lib.path (lib.TIMEMORY_JOIN "/" [directory, "CTestNotes.cmake"])) = true
    · simp [ofstream_open, ofstream_write, hopen, hq]
    · simp [ofstream_open, hopen]

/-- C9 at a concrete run: two report files, directory `out`, append mode, an existing
notes file. -/
theorem write_ctest_notes_text_witness :
    (write_ctest_notes sample_library false ["a.txt", "b.txt"] "out" true sample_files).1
        = "out/CTestNotes.cmake" ∧
      (write_ctest_notes sample_library false ["a.txt", "b.txt"] "out" true
          sample_files).2.contents "out/CTestNotes.cmake"
        = some ("# old\n" ++ (ctest_notes_header
            ++ "LIST(APPEND CTEST_NOTES_FILES \"a.txt\")\nLIST(APPEND CTEST_NOTES_FILES \"b.txt\")\n"
            ++ ctest_notes_footer)) :=
  ⟨(write_ctest_notes_text sample_library ["a.txt", "b.txt"] "out" true sample_files).2.1
      (fun _ _ => rfl),
    (write_ctest_notes_text sample_library ["a.txt", "b.txt"] "out" true sample_files).2.2.1
      (by decide)⟩

end manager

end pytim

/-! ## `pytim::opt::ensure_directory_exists` -/

namespace string_t

/-- A string without any of `chars` has no last position holding one. -/
theorem find_last_of_below_none (s chars : List Char) (h : ∀ c ∈ s, c ∉ chars) (n : Nat) :
    find_last_of_below s chars n = none := by
  induction n with
  | zero => rfl
  | succ n ih =>
    unfold find_last_of_below
    cases hn : s[n]? with
    | none => exact ih
    | some c =>
      have hc : c ∈ s := by
        obtain ⟨hlt, he⟩ := List.getElem?_eq_some.mp hn
        rw [← he]
        exact List.getElem_mem hlt
      simp only [if_neg (h c hc)]
      exact ih

/-- In `d ++ sep :: rest` with `sep` one of `chars` and none of them in `rest`, the
scan from any position past `sep` stops at `sep`. -/
theorem find_last_of_below_split (d rest chars : List Char) (sep : Char)
    (hsep : sep ∈ chars) (hrest : ∀ c ∈ rest, c ∉ chars) (k : Nat) (hk : k ≤ rest.length) :
    find_last_of_below (d ++ sep :: rest) chars (d.length + 1 + k) = some d.length := by
  induction k with
  | zero =>
    show find_last_of_below (d ++ sep :: rest) chars (d.length + 1) = some d.length
    unfold find_last_of_below
    have hg : (d ++ sep :: rest)[d.length]? = some sep := by
      rw [List.getElem?_append_right (Nat.le_refl _)]
      simp
    rw [hg]
    simp [hsep]
  | succ k ih =>
    show find_last_of_below (d ++ sep :: rest) chars ((d.length + 1 + k) + 1) = some d.length
    unfold find_last_of_below
    have hk' : k < rest.length := hk
    have hg : (d ++ sep :: rest)[d.length + 1 + k]? = some rest[k] := by
      rw [List.getElem?_append_right (by omega)]
      have e : d.length + 1 + k - d.length = k + 1 := by omega
      rw [e]
      simp [hk']
    rw [hg]
    simp only [if_neg (hrest _ (List.getElem_mem hk'))]
    exact ih (by omega)

/-- A string holding one of `chars` splits at the last position that holds one. -/
theorem exists_last_split (s chars : List Char) (h : ∃ c ∈ s, c ∈ chars) :
    ∃ d sep rest, s = d ++ sep :: rest ∧ sep ∈ chars ∧ ∀ c ∈ rest, c ∉ chars := by
  induction s with
  | nil =>
    obtain ⟨c, hc, _⟩ := h
    cases hc
  | cons a t ih =>
    by_cases ht : ∃ c ∈ t, c ∈ chars
    · obtain ⟨d, sep, rest, hs, hsep, hrest⟩ := ih ht
      exact ⟨a :: d, sep, rest, by rw [hs]; rfl, hsep, hrest⟩
    · have hnone : ∀ c ∈ t, c ∉ chars := fun c hc hcc => ht ⟨c, hc, hcc⟩
      obtain ⟨c, hc, hcc⟩ := h
      rcases List.mem_cons.mp hc with rfl | hc
      · exact ⟨[], c, t, rfl, hcc, hnone⟩
      · exact absurd hcc (hnone c hc)

end string_t

namespace pytim

namespace opt

/-- The two separators searched for. -/
theorem separators_data : ("/\\" : String).data = ['/', '\\'] := rfl

/-- On `d ++ sep ++ rest`, with `sep` a separator and none in `rest`, the directory
handed to `makedir` is `d`. -/
theorem ensure_directory_exists_split {σ : Type} (makedir : String → σ → σ) (st : σ)
    (d rest : String) (sep : Char) (hsep : sep = '/' ∨ sep = '\\')
    (hrest : ∀ c ∈ rest.data, c ≠ '/' ∧ c ≠ '\\') :
    ensure_directory_exists makedir (d ++ String.singleton sep ++ rest) st
      = makedir d st := by
  have hdata : (d ++ String.singleton sep ++ rest).data = d.data ++ sep :: rest.data := by
    simp [String.singleton]
  have hlen : (d.data ++ sep :: rest.data).length = d.data.length + 1 + rest.data.length := by
    simp
    omega
  have hfind : string_t.find_last_of (d ++ String.singleton sep ++ rest) "/\\"
      = some d.data.length := by
    unfold string_t.find_last_of
    rw [hdata, hlen, separators_data]
    apply string_t.find_last_of_below_split
    · rcases hsep with h | h <;> simp [h]
    · intro c hc
      have := hrest c hc
      simp [this.1, this.2]
    · exact Nat.le_refl _
  unfold ensure_directory_exists
  rw [hfind]
  have hsub : string_t.substr (d ++ String.singleton sep ++ rest) 0 d.data.length = d := by
    apply String.ext
    simp [string_t.substr, hdata]
  simp only [hsub]

/-- C10: `ensure_directory_exists` splits its argument at the last path separator:
whenever `file_path` is `d ++ sep ++ rest` with `sep` a single `/` or `\` and `rest`
without separator, the directory passed to `makedir` is `d` (the empty name when the
only separator is the leading one); every `file_path` containing a separator has such
a splitting; and for a `file_path` without separator `makedir` is not called, the
state being left as it is. -/
theorem ensure_directory_exists_last_separator {σ : Type} (makedir : String → σ → σ)
    (st : σ) :
    (∀ (d rest : String) (sep : Char), (sep = '/' ∨ sep = '\\') →
        (∀ c ∈ rest.data, c ≠ '/' ∧ c ≠ '\\') →
        ensure_directory_exists makedir (d ++ String.singleton sep ++ rest) st
          = makedir d st) ∧
      (∀ file_path : String, (∃ c ∈ file_path.data, c = '/' ∨ c = '\\') →
        ∃ (d rest : String) (sep : Char),
          file_path = d ++ String.singleton sep ++ rest ∧ (sep = '/' ∨ sep = '\\') ∧
            (∀ c ∈ rest.data, c ≠ '/' ∧ c ≠ '\\') ∧
            ensure_directory_exists makedir file_path st = makedir d st) ∧
      (∀ file_path : String, (∀ c ∈ file_path.data, c ≠ '/' ∧ c ≠ '\\') →
        ensure_directory_exists makedir file_path st = st) := by
  refine ⟨fun d rest sep hsep hrest =>
      ensure_directory_exists_split makedir st d rest sep hsep hrest, ?_, ?_⟩
  · intro file_path hex
    have hex' : ∃ c ∈ file_path.data, c ∈ ['/', '\\'] := by
      obtain ⟨c, hc, hcc⟩ := hex
      exact ⟨c, hc, by rcases hcc with h | h <;> simp [h]⟩
    obtain ⟨d, sep, rest, hs, hsep, hrest⟩ :=
      string_t.exists_last_split file_path.data ['/', '\\'] hex'
    have hsep' : sep = '/' ∨ sep = '\\' := by simpa using hsep
    have hrest' : ∀ c ∈ (String.mk rest).data, c ≠ '/' ∧ c ≠ '\\' := by
      intro c hc
      have := hrest c hc
      simpa using this
    have hfp : file_path = String.mk d ++ String.singleton sep ++ String.mk rest := by
      apply String.ext
      simp [String.singleton, hs]
    refine ⟨String.mk d, String.mk rest, sep, hfp, hsep', hrest', ?_⟩
    rw [hfp]
    exact ensure_directory_exists_split makedir st _ _ sep hsep' hrest'
  · intro file_path hnone
    have hfind : string_t.find_last_of file_path "/\\" = none := by
      unfold string_t.find_last_of
      rw [separators_data]
      apply string_t.find_last_of_below_none
      intro c hc
      have := hnone c hc
      simp [this.1, this.2]
    unfold ensure_directory_exists
    rw [hfind]

/-- C10 at concrete paths, with `makedir` recording the directories it is given:
`out/run\notes.txt` gives `out/run`, `/notes.txt` gives the empty name, and
`notes.txt` gives no call. -/
theorem ensure_directory_exists_last_separator_witness :
    ensure_directory_exists (fun dir calls => calls ++ [dir]) "out/run\\notes.txt" []
        = ["out/run"] ∧
      ensure_directory_exists (fun dir calls => calls ++ [dir]) "/notes.txt" [] = [""] ∧
      ensure_directory_exists (fun dir calls => calls ++ [dir]) "notes.txt" []
        = ([] : List String) :=
  ⟨(ensure_directory_exists_last_separator (fun dir calls => calls ++ [dir]) []).1
      "out/run" "notes.txt" '\\' (Or.inr rfl) (by decide),
    (ensure_directory_exists_last_separator (fun dir calls => calls ++ [dir]) []).1
      "" "notes.txt" '/' (Or.inl rfl) (by decide),
    (ensure_directory_exists_last_separator (fun dir calls => calls ++ [dir]) []).2.2
      "notes.txt" (by decide)⟩

end opt

end pytim
